import Mathlib

/-!
# Verification of the Anime Forever backend (`server.js`)

The repository's `server.js` holds two implementations of the same HTTP
surface, separated by a document marker:

* **Variant A** (file based): series persisted to `data/series.json`
  through `readJson`/`writeJson`; admin is a fixed username
  (`ADMIN_USERNAME`).
* **Variant B** (in memory): series kept in a process-global array with a
  numeric id counter `nextSeriesId`; admin is a per-user flag.

This file is a shallow embedding of both variants.  Handlers become pure
functions on an explicit state: the series collection plus the set of blob
file paths currently present under `/uploads`, modelled as a `List String`
(a file system has at most one file per path, and the unlink model removes
every entry for a path).  `fs.unlinkSync` removes a path from that set;
`multer` staging is modelled by the uploaded file's path being in the set
before the handler runs.  A blob file is identified by its server-relative
path `"/uploads/" ++ filename`: this is exactly the string stored in the
episode `src` fields, and deletion joins that same string with `__dirname`,
so the identification is faithful.
-/

/-- JSON values: the parse trees produced by `JSON.parse` and consumed by
`JSON.stringify`.  Numbers never occur in the persisted series collection,
so an integer payload suffices (it is only needed for the falsiness model
of `readJson`). -/
inductive Json where
  | null : Json
  | bool : Bool → Json
  | num : Int → Json
  | str : String → Json
  | arr : List Json → Json
  | obj : List (String × Json) → Json

/-- JavaScript falsiness of a JSON value: `null`, `false`, `0` and `""` are
falsy; every array and object (even empty ones) is truthy. -/
def jsonFalsy : Json → Bool
  | .null => true
  | .bool b => !b
  | .num n => n == 0
  | .str s => s == ""
  | .arr _ => false
  | .obj _ => false

/-- `readJson(file, fallback)` from variant A:
`try { return JSON.parse(fs.readFileSync(file, 'utf8') || 'null') || fallback } catch (e) { return fallback }`.
The argument `content` is the outcome of reading and parsing the file:
`Except.error ()` when the file is unreadable or its text malformed (the
`catch` branch fires), `Except.ok v` when parsing produced the value `v`.
The trailing `|| fallback` replaces a falsy parse result by the fallback. -/
def readJson (content : Except Unit Json) (fallback : Json) : Json :=
  match content with
  | .error _ => fallback
  | .ok v => if jsonFalsy v then fallback else v

/-- A file-system operation issued by the persistence layer. -/
inductive FsOp where
  | write (path : String) (content : Json)
  | rename (src dst : String)

/-- `writeJson(file, obj)` from variant A is the single call
`fs.writeFileSync(file, JSON.stringify(obj, null, 2), 'utf8')`: one direct
write of the serialized object to the target path.  The trace records the
file-system operations performed, the serialized text represented by its
parse tree. -/
def writeJsonTrace (file : String) (obj : Json) : List FsOp :=
  [FsOp.write file obj]

/-- The commit shape required by the spec (this definition follows the
spec's words, for comparison with `writeJsonTrace`): first fully serialize
to a temporary location distinct from the final path, then make the new
state visible by a single rename of that temporary onto the final path. -/
def isAtomicReplace (file : String) : List FsOp → Bool
  | [FsOp.write tmp _, FsOp.rename src dst] =>
      tmp != file && src == tmp && dst == file
  | _ => false

/-!
## Injectivity of decimal printing

Variant B forms series ids with `String(nextSeriesId++)`, i.e. `Nat.repr`
of the counter.  Distinctness of ids across creations reduces to the
injectivity of `Nat.repr`, proved here by evaluating the printed digit
list back to the number.
-/

/-- Numeric value of a decimal digit character. -/
def charVal (c : Char) : Nat := c.toNat - '0'.toNat

/-- Value of a most-significant-digit-first character list. -/
def digitsVal (l : List Char) : Nat := l.foldl (fun a c => 10 * a + charVal c) 0

theorem foldl_digits_shift (l : List Char) (a : Nat) :
    l.foldl (fun x c => 10 * x + charVal c) a =
      a * 10 ^ l.length + digitsVal l := by
  induction l generalizing a with
  | nil => simp [digitsVal]
  | cons c cs ih =>
      simp only [List.foldl, digitsVal, List.length_cons]
      rw [ih (10 * a + charVal c), ih (10 * 0 + charVal c)]
      ring

theorem digitsVal_cons (c : Char) (cs : List Char) :
    digitsVal (c :: cs) = charVal c * 10 ^ cs.length + digitsVal cs := by
  simp only [digitsVal, List.foldl]
  rw [foldl_digits_shift]
  norm_num [digitsVal]

theorem charVal_digitChar (m : Nat) (h : m < 10) :
    charVal (Nat.digitChar m) = m := by
  interval_cases m <;> decide

theorem toDigitsCore_val (fuel : Nat) : ∀ (n : Nat) (ds : List Char),
    n < 10 ^ fuel →
    digitsVal (Nat.toDigitsCore 10 fuel n ds) =
      n * 10 ^ ds.length + digitsVal ds := by
  induction fuel with
  | zero =>
      intro n ds h
      simp only [pow_zero, Nat.lt_one_iff] at h
      subst h
      simp [Nat.toDigitsCore]
  | succ fuel ih =>
      intro n ds h
      simp only [Nat.toDigitsCore]
      by_cases h10 : n / 10 = 0
      · have hn : n < 10 := by omega
        simp only [h10, if_true]
        rw [digitsVal_cons, charVal_digitChar _ (Nat.mod_lt _ (by norm_num))]
        have : n % 10 = n := Nat.mod_eq_of_lt hn
        rw [this]
      · have hpow : n < 10 ^ fuel * 10 := by
          rw [← pow_succ]; exact h
        have hdiv : n / 10 < 10 ^ fuel := by omega
        simp only [h10, if_false]
        rw [ih (n / 10) (Nat.digitChar (n % 10) :: ds) hdiv]
        rw [digitsVal_cons, charVal_digitChar _ (Nat.mod_lt _ (by norm_num))]
        have hsplit : 10 * (n / 10) + n % 10 = n := Nat.div_add_mod n 10
        set t := 10 ^ ds.length with ht
        calc n / 10 * 10 ^ (Nat.digitChar (n % 10) :: ds).length +
              (n % 10 * t + digitsVal ds)
            = (10 * (n / 10) + n % 10) * t + digitsVal ds := by
              simp only [List.length_cons, pow_succ, ht]; ring
          _ = n * t + digitsVal ds := by rw [hsplit]

theorem digitsVal_toDigits (n : Nat) :
    digitsVal (Nat.toDigits 10 n) = n := by
  have h2 : n < 2 ^ n := Nat.lt_two_pow n
  have h10 : (2 : Nat) ^ n ≤ 10 ^ n := Nat.pow_le_pow_left (by norm_num) n
  have h10' : (10 : Nat) ^ n ≤ 10 ^ (n + 1) :=
    Nat.pow_le_pow_right (by norm_num) (Nat.le_succ n)
  have h : n < 10 ^ (n + 1) := by omega
  show digitsVal (Nat.toDigitsCore 10 (n + 1) n []) = n
  rw [toDigitsCore_val (n + 1) n [] h]
  simp [digitsVal]

theorem natRepr_inj {m n : Nat} (h : Nat.repr m = Nat.repr n) : m = n := by
  have hd : Nat.toDigits 10 m = Nat.toDigits 10 n := congrArg String.data h
  have := congrArg digitsVal hd
  rwa [digitsVal_toDigits, digitsVal_toDigits] at this

/-- `fs.unlinkSync` on the blob-path set: removes the file at path `p`
(a file system holds at most one file per path, so removal by filtering
is exact). -/
def unlink (p : String) (bs : List String) : List String :=
  bs.filter (fun q => q != p)

/-- Replace the first element satisfying `p` (JS mutates the object
located by `Array.prototype.find`, leaving any later duplicate
untouched). -/
def updateFirst (p : α → Bool) (f : α → α) : List α → List α
  | [] => []
  | x :: xs => if p x then f x :: xs else x :: updateFirst p f xs

/-- JS `String.prototype.toLowerCase()` as applied to series names: lower
each character.  This is `String.toLower` (map `Char.toLower` over the
characters) written by structural recursion on the character list, so
that it evaluates by kernel reduction. -/
def jsToLower (s : String) : String := String.mk (s.data.map Char.toLower)

/-- JS `s.startsWith(pre)` as used on episode `src` fields: `pre`'s
characters are a prefix of `s`'s (written over the character lists so
that it evaluates by kernel reduction; semantically
`String.startsWith`). -/
def jsStartsWith (s pre : String) : Bool := pre.data.isPrefixOf s.data

/-- Remove the first element satisfying `p`, returning it and the
remaining list (`findIndex` followed by indexing and `splice(idx, 1)`). -/
def extractFirst (p : α → Bool) : List α → Option (α × List α)
  | [] => none
  | x :: xs =>
      if p x then some (x, xs)
      else (extractFirst p xs).map fun r => (r.1, x :: r.2)

namespace VA

/-- An episode record of variant A, exactly the object pushed by
`POST /api/series/:id/episodes`: the file branch stores
`fileName: req.file.originalname`, the JSON branch stores no `fileName`
key (modelled by `Option`).  The JS key `type` is `epType` here. -/
structure Episode where
  id : String
  title : String
  epType : String
  src : String
  pseudo : String
  fileName : Option String
deriving DecidableEq

/-- A series record of variant A (`data/series.json` entry). -/
structure Series where
  id : String
  name : String
  desc : String
  image : String
  pseudo : String
  episodes : List Episode
deriving DecidableEq

/-- `Date.now() + '-' + Math.round(Math.random()*1e9)`: the ad hoc id
generator of variant A; `now` and `rand` are the sampled values. -/
def genId (now rand : Nat) : String := Nat.repr now ++ "-" ++ Nat.repr rand

/-- Variant A server state: the collection stored in `data/series.json`
plus the blob paths present under `/uploads`. -/
structure St where
  series : List Series
  blobs : List String
deriving DecidableEq

/-- A file staged by multer before the handler runs: `filename` is the
generated disk name, `originalname` the client-supplied name. -/
structure UploadedFile where
  filename : String
  originalname : String
deriving DecidableEq

/-- Server-relative path of a staged upload, also the `src` stored for
uploaded episodes. -/
def blobPath (f : UploadedFile) : String := "/uploads/" ++ f.filename

inductive CreateRes where
  | ok (s : Series)
  | missingName
  | conflict
deriving DecidableEq

/-- `POST /api/series` (variant A, lines 122–139).  `user` is the
authenticated username, `now`/`rand` the id samples; absent body fields
arrive as `""` (JS `undefined` and `''` behave alike under `||`).  The
name check is case-insensitive and runs against the freshly read
collection. -/
def createSeries (st : St) (user name desc image : String) (now rand : Nat) :
    CreateRes × St :=
  if name = "" then (.missingName, st)
  else if (st.series.find? (fun s => jsToLower s.name == jsToLower name)).isSome then
    (.conflict, st)
  else
    let s : Series := { id := genId now rand, name := name, desc := desc,
                        image := image, pseudo := user, episodes := [] }
    (.ok s, { st with series := st.series ++ [s] })

inductive AddRes where
  | ok
  | notFound
  | missingSrc
deriving DecidableEq

/-- `POST /api/series/:id/episodes` (variant A, lines 144–165).  With a
file, the new episode stores `src = "/uploads/" ++ filename`,
`type: 'url'` and `fileName = originalname`; without a file the JSON body
must carry `src` (stored verbatim).  The located series is mutated in
place and the collection rewritten.  The not-found branch returns 404
without deleting the staged upload. -/
def addEpisode (st : St) (sid : String) (file : Option UploadedFile)
    (title epType src user : String) (now rand : Nat) : AddRes × St :=
  match st.series.find? (fun s => s.id == sid) with
  | none => (.notFound, st)
  | some s =>
    match file with
    | some f =>
        let t := if title = "" then "Épisode " ++ Nat.repr (s.episodes.length + 1)
                 else title
        let ep : Episode := { id := genId now rand, title := t, epType := "url",
                              src := blobPath f, pseudo := user,
                              fileName := some f.originalname }
        let newSeries :=
          updateFirst (fun x => x.id == sid)
            (fun x => { x with episodes := x.episodes ++ [ep] }) st.series
        (.ok, { st with series := newSeries })
    | none =>
        if src = "" then (.missingSrc, st)
        else
          let t := if title = "" then "Épisode " ++ Nat.repr (s.episodes.length + 1)
                   else title
          let ty := if epType = "" then "url" else epType
          let ep : Episode := { id := genId now rand, title := t, epType := ty,
                                src := src, pseudo := user, fileName := none }
          let newSeries :=
            updateFirst (fun x => x.id == sid)
              (fun x => { x with episodes := x.episodes ++ [ep] }) st.series
          (.ok, { st with series := newSeries })

inductive UpdRes where
  | ok
  | notFound
deriving DecidableEq

/-- `PUT /api/series/:id/image` (variant A, lines 168–177): sets
`s.image = image || ''` and rewrites the collection.  No file-system
operation touches the blob of the previous image. -/
def updateImage (st : St) (sid image : String) : UpdRes × St :=
  match st.series.find? (fun s => s.id == sid) with
  | none => (.notFound, st)
  | some _ =>
      let newSeries :=
        updateFirst (fun x => x.id == sid)
          (fun x => { x with image := image }) st.series
      (.ok, { st with series := newSeries })

/-- `isAdmin(req)`: `req.user && req.user.username === ADMIN_USERNAME`;
`user` is `none` when no authenticated user is attached. -/
def isAdmin (user : Option String) (adminName : String) : Bool :=
  match user with
  | none => false
  | some u => u == adminName

inductive DelRes where
  | ok
  | forbidden
  | notFound
deriving DecidableEq

/-- `DELETE /api/series/:id` (variant A, lines 194–203): admin gate, then
splice the record out and rewrite the file.  No blob file is deleted. -/
def deleteSeries (st : St) (user : Option String) (adminName sid : String) :
    DelRes × St :=
  if !isAdmin user adminName then (.forbidden, st)
  else
    match extractFirst (fun s => s.id == sid) st.series with
    | none => (.notFound, st)
    | some r => (.ok, { st with series := r.2 })

/-- JSON written for one episode: `JSON.stringify` emits an object's own
keys in insertion order and omits absent (`undefined`) keys, so the
`fileName` key appears exactly when the episode came from an upload. -/
def encodeEpisode (e : Episode) : Json :=
  .obj ([("id", .str e.id), ("title", .str e.title), ("type", .str e.epType),
         ("src", .str e.src), ("pseudo", .str e.pseudo)] ++
        (match e.fileName with
         | some f => [("fileName", .str f)]
         | none => []))

/-- JSON written for one series record. -/
def encodeSeries (s : Series) : Json :=
  .obj [("id", .str s.id), ("name", .str s.name), ("desc", .str s.desc),
        ("image", .str s.image), ("pseudo", .str s.pseudo),
        ("episodes", .arr (s.episodes.map encodeEpisode))]

/-- JSON written for the whole collection (the array `writeJson` is given). -/
def encodeColl (l : List Series) : Json := .arr (l.map encodeSeries)

/-- Typed reading of a stored episode object — the inverse view of
`encodeEpisode` (in JS the parsed object is used directly; this function
is the typing of that use). -/
def decodeEpisode : Json → Option Episode
  | .obj [("id", .str i), ("title", .str t), ("type", .str ty),
          ("src", .str sr), ("pseudo", .str p)] =>
      some { id := i, title := t, epType := ty, src := sr, pseudo := p,
             fileName := none }
  | .obj [("id", .str i), ("title", .str t), ("type", .str ty),
          ("src", .str sr), ("pseudo", .str p), ("fileName", .str f)] =>
      some { id := i, title := t, epType := ty, src := sr, pseudo := p,
             fileName := some f }
  | _ => none

/-- Decode every element of a JSON array, failing if any element fails. -/
def decodeList (dec : Json → Option α) : List Json → Option (List α)
  | [] => some []
  | j :: js =>
      match dec j, decodeList dec js with
      | some a, some l => some (a :: l)
      | _, _ => none

/-- Typed reading of a stored series record. -/
def decodeSeries : Json → Option Series
  | .obj [("id", .str i), ("name", .str n), ("desc", .str d),
          ("image", .str im), ("pseudo", .str p), ("episodes", .arr es)] =>
      (decodeList decodeEpisode es).map fun eps =>
        { id := i, name := n, desc := d, image := im, pseudo := p,
          episodes := eps }
  | _ => none

/-- Typed reading of the stored collection. -/
def decodeColl : Json → Option (List Series)
  | .arr l => decodeList decodeSeries l
  | _ => none

end VA

namespace VB

/-- An episode record of variant B: `{ id, title, src, pseudo }`. -/
structure Episode where
  id : String
  title : String
  src : String
  pseudo : String
deriving DecidableEq

/-- A series record of variant B. -/
structure Series where
  id : String
  name : String
  desc : String
  image : String
  pseudo : String
  episodes : List Episode
deriving DecidableEq

/-- One entry of the parsed `episodes` JSON field of the create request:
`{ hasFile, index, title, src }`, `index` matched against the multipart
field name `episode_{index}`. -/
structure EpisodeSpec where
  hasFile : Bool
  index : Nat
  title : String
  src : String
deriving DecidableEq

/-- A multipart file staged by multer: `fieldname` the form field name,
`filename` the generated disk name. -/
structure UploadedFile where
  fieldname : String
  filename : String
deriving DecidableEq

/-- Server-relative path of a staged upload (`file.path` up to the server
root, and the `src` stored for uploaded episodes). -/
def blobPath (f : UploadedFile) : String := "/uploads/" ++ f.filename

/-- Variant B server state: the in-memory `series` array, the
`nextSeriesId` counter, and the blob paths present under `/uploads`. -/
structure St where
  series : List Series
  nextId : Nat
  blobs : List String
deriving DecidableEq

/-- `req.files.forEach(file => fs.unlinkSync(file.path))`: the error-path
cleanup of `POST /api/series`. -/
def discardAll (files : List UploadedFile) (bs : List String) : List String :=
  files.foldl (fun acc f => unlink (blobPath f) acc) bs

/-- One step of the `episodesData.map` in `POST /api/series` (variant B,
lines 398–419): a spec with `hasFile` must find its uploaded file by
field name `episode_{index}` or the map throws (`none`); episode ids are
`${nextSeriesId}-${idx + 1}`. -/
def mkEpisode (n : Nat) (pseudo : String) (files : List UploadedFile)
    (idx : Nat) (ep : EpisodeSpec) : Option Episode :=
  if ep.hasFile then
    (files.find? (fun f => f.fieldname == "episode_" ++ Nat.repr ep.index)).map
      fun f => { id := Nat.repr n ++ "-" ++ Nat.repr (idx + 1),
                 title := ep.title, src := blobPath f, pseudo := pseudo }
  else
    some { id := Nat.repr n ++ "-" ++ Nat.repr (idx + 1), title := ep.title,
           src := ep.src, pseudo := pseudo }

/-- The whole `episodesData.map(...)` starting at index `idx`: `none`
when some spec's file is missing (the handler's `throw`). -/
def buildEpisodes (n : Nat) (pseudo : String) (files : List UploadedFile)
    (idx : Nat) : List EpisodeSpec → Option (List Episode)
  | [] => some []
  | ep :: rest =>
      match mkEpisode n pseudo files idx ep,
            buildEpisodes n pseudo files (idx + 1) rest with
      | some e, some es => some (e :: es)
      | _, _ => none

inductive CreateRes where
  | ok (s : Series)
  | badRequest
  | serverError
deriving DecidableEq

/-- `POST /api/series` (variant B, lines 368–446).  `specs = none` models
an `episodes` field that fails `JSON.parse`.  Every error path first
unlinks all staged uploads.  There is no duplicate-name check anywhere in
this handler. -/
def createSeries (st : St) (pseudo name desc image : String)
    (specs : Option (List EpisodeSpec)) (files : List UploadedFile) :
    CreateRes × St :=
  if pseudo = "" ∨ name = "" then
    (.badRequest, { st with blobs := discardAll files st.blobs })
  else
    match specs with
    | none => (.badRequest, { st with blobs := discardAll files st.blobs })
    | some l =>
      if l.isEmpty then
        (.badRequest, { st with blobs := discardAll files st.blobs })
      else
        match buildEpisodes st.nextId pseudo files 0 l with
        | none => (.serverError, { st with blobs := discardAll files st.blobs })
        | some eps =>
            let s : Series := { id := Nat.repr st.nextId, name := name,
                                desc := desc, image := image, pseudo := pseudo,
                                episodes := eps }
            (.ok s, { st with series := st.series ++ [s],
                              nextId := st.nextId + 1 })

inductive DelRes where
  | ok
  | forbidden
  | notFound
deriving DecidableEq

/-- Release of one episode's file in the delete paths (variant B, lines
456–468 and 533–543): unlink exactly when `src` starts with `/uploads/`
(the `existsSync` guard only skips an already-absent file, which on the
path-set model is already a no-op). -/
def releaseEpisode (ep : Episode) (bs : List String) : List String :=
  if jsStartsWith ep.src "/uploads/" then unlink ep.src bs else bs

/-- `DELETE /api/series/:id` (variant B, lines 449–473), behind
`authMiddleware` and `adminMiddleware` (`isAdm` is `req.user.isAdmin`):
unlink each episode's uploaded file, then splice the series out.  The
cover `image` field is never examined. -/
def deleteSeries (st : St) (isAdm : Bool) (sid : String) : DelRes × St :=
  if !isAdm then (.forbidden, st)
  else
    match extractFirst (fun s => s.id == sid) st.series with
    | none => (.notFound, st)
    | some r =>
        let newBlobs := r.1.episodes.foldl (fun bs ep => releaseEpisode ep bs) st.blobs
        (.ok, { st with series := r.2, blobs := newBlobs })

inductive AddRes where
  | ok (e : Episode)
  | notFound
  | badRequest
deriving DecidableEq

/-- `POST /api/series/:id/episodes` (variant B, lines 476–516).  When the
series is missing, the staged upload (if any) is unlinked before the 404
is returned.  With a file the episode's `src` is `/uploads/<filename>`;
otherwise the body's `url` is stored verbatim; with neither, 400. -/
def addEpisode (st : St) (sid : String) (file : Option UploadedFile)
    (title url pseudo user : String) : AddRes × St :=
  match st.series.find? (fun s => s.id == sid) with
  | none =>
      let bs := match file with
                | some f => unlink (blobPath f) st.blobs
                | none => st.blobs
      (.notFound, { st with blobs := bs })
  | some s =>
      let epNumber := s.episodes.length + 1
      let src? : Option String :=
        match file with
        | some f => some (blobPath f)
        | none => if url = "" then none else some url
      match src? with
      | none => (.badRequest, st)
      | some src =>
          let e : Episode := { id := s.id ++ "-" ++ Nat.repr epNumber,
                               title := if title = "" then "Épisode " ++ Nat.repr epNumber
                                        else title,
                               src := src,
                               pseudo := if pseudo = "" then user else pseudo }
          let newSeries :=
            updateFirst (fun x => x.id == sid)
              (fun x => { x with episodes := x.episodes ++ [e] }) st.series
          (.ok e, { st with series := newSeries })

/-- `DELETE /api/series/:seriesId/episodes/:episodeId` (variant B, lines
519–547): admin gate, locate series and episode, unlink the file when the
`src` is an upload path, splice the episode out. -/
def deleteEpisode (st : St) (isAdm : Bool) (sid epId : String) : DelRes × St :=
  if !isAdm then (.forbidden, st)
  else
    match st.series.find? (fun s => s.id == sid) with
    | none => (.notFound, st)
    | some s =>
        match extractFirst (fun e => e.id == epId) s.episodes with
        | none => (.notFound, st)
        | some r =>
            let newSeries :=
              updateFirst (fun x => x.id == sid)
                (fun x => { x with episodes := r.2 }) st.series
            (.ok, { st with series := newSeries,
                            blobs := releaseEpisode r.1 st.blobs })

end VB

/-!
## Claims
-/

/-- **C4, counterexample.**  The claim requires every commit to serialize
to a temporary location and become visible through a single indivisible
replace.  `writeJson`'s operation trace on the series file is a single
direct write to the final path and has no rename, so it does not have the
atomic-replace shape. -/
theorem c4_counterexample :
    isAtomicReplace "data/series.json"
      (writeJsonTrace "data/series.json" (Json.arr [])) = false := rfl

/-- **C4 (amended).**  Every commit of the durable collection is one
direct `writeFileSync` of the serialized collection to the final path —
no temporary location, no rename — so it never has the spec's
atomic-replace shape; a crash mid-write can leave a truncated collection
visible. -/
theorem c4_amended (file : String) (obj : Json) :
    writeJsonTrace file obj = [FsOp.write file obj] ∧
    isAtomicReplace file (writeJsonTrace file obj) = false :=
  ⟨rfl, rfl⟩

/-- **C5, counterexample.**  The claim requires unreadable or malformed
persisted data to abort the operation with `CorruptStore`.  `readJson` on
a failed read/parse instead silently returns the fallback empty
collection — the corrupt state is replaced, not surfaced. -/
theorem c5_counterexample :
    readJson (Except.error ()) (Json.arr []) = Json.arr [] := rfl

/-- **C5 (amended).**  On unreadable or malformed persisted data
`readJson` silently returns the caller's fallback collection (and also
replaces a falsy parse result by the fallback); no error is ever
surfaced, and a readable array is returned as-is. -/
theorem c5_amended (fallback : Json) (l : List Json) :
    readJson (Except.error ()) fallback = fallback ∧
    readJson (Except.ok (Json.arr l)) fallback = Json.arr l :=
  ⟨rfl, rfl⟩

/-- **C7.**  When the authorization check rejects the subject,
`DELETE /api/series/:id` returns Forbidden and the state — the series
collection and the blob store — is exactly unchanged, in both variants
(variant A: fixed admin username; variant B: per-user `isAdmin` flag). -/
theorem c7_forbidden_delete_unchanged
    (stA : VA.St) (user : Option String) (adminName sid : String)
    (stB : VB.St) (sidB : String)
    (h : VA.isAdmin user adminName = false) :
    VA.deleteSeries stA user adminName sid = (.forbidden, stA) ∧
    VB.deleteSeries stB false sidB = (.forbidden, stB) := by
  constructor
  · simp [VA.deleteSeries, h]
  · simp [VB.deleteSeries]

/-- Witness for C7 at a concrete non-admin subject and concrete states. -/
theorem c7_witness :
    VA.isAdmin (some "alice") "AnimeForever-admin" = false ∧
    (VA.deleteSeries ⟨[], []⟩ (some "alice") "AnimeForever-admin" "1" =
        (.forbidden, ⟨[], []⟩) ∧
      VB.deleteSeries ⟨[], 1, []⟩ false "1" = (.forbidden, ⟨[], 1, []⟩)) :=
  ⟨by decide,
   c7_forbidden_delete_unchanged ⟨[], []⟩ (some "alice") "AnimeForever-admin" "1"
     ⟨[], 1, []⟩ "1" (by decide)⟩

/-- **C6, counterexample.**  The claim requires `UpdateCoverImage` to
release the previous cover blob after the commit.  In variant A the
update succeeds and the record now points at the new image, but the
previous blob file `/uploads/old.png` is still present in blob storage:
no release ever happens. -/
theorem c6_counterexample :
    VA.updateImage ⟨[⟨"1", "Naruto", "", "/uploads/old.png", "alice", []⟩],
        ["/uploads/old.png"]⟩ "1" "/uploads/new.png" =
      (.ok, ⟨[⟨"1", "Naruto", "", "/uploads/new.png", "alice", []⟩],
             ["/uploads/old.png"]⟩) := by
  decide

/-- **C6 (amended).**  For a series present in the collection,
`PUT /api/series/:id/image` succeeds and installs the new image on the
matched record, but the blob store is exactly unchanged: the previous
cover blob is never deleted, neither before nor after the commit. -/
theorem c6_amended (st : VA.St) (sid image : String)
    (h : (st.series.find? (fun s => s.id == sid)).isSome = true) :
    (VA.updateImage st sid image).1 = .ok ∧
    (VA.updateImage st sid image).2.blobs = st.blobs ∧
    (VA.updateImage st sid image).2.series =
      updateFirst (fun x => x.id == sid) (fun x => { x with image := image })
        st.series := by
  cases hf : st.series.find? (fun s => s.id == sid) with
  | none => rw [hf] at h; simp at h
  | some s => refine ⟨?_, ?_, ?_⟩ <;> simp [VA.updateImage, hf]

/-- Witness for C6 at a concrete series with a blob cover image. -/
theorem c6_witness :
    (((VA.St.mk [⟨"1", "Naruto", "", "/uploads/old.png", "alice", []⟩]
        ["/uploads/old.png"]).series.find? (fun s => s.id == "1")).isSome
      = true) ∧
    ((VA.updateImage ⟨[⟨"1", "Naruto", "", "/uploads/old.png", "alice", []⟩],
          ["/uploads/old.png"]⟩ "1" "/uploads/new.png").1 = .ok ∧
      (VA.updateImage ⟨[⟨"1", "Naruto", "", "/uploads/old.png", "alice", []⟩],
          ["/uploads/old.png"]⟩ "1" "/uploads/new.png").2.blobs =
        ["/uploads/old.png"] ∧
      (VA.updateImage ⟨[⟨"1", "Naruto", "", "/uploads/old.png", "alice", []⟩],
          ["/uploads/old.png"]⟩ "1" "/uploads/new.png").2.series =
        updateFirst (fun x => x.id == "1")
          (fun x => { x with image := "/uploads/new.png" })
          [⟨"1", "Naruto", "", "/uploads/old.png", "alice", []⟩]) :=
  ⟨by decide,
   c6_amended ⟨[⟨"1", "Naruto", "", "/uploads/old.png", "alice", []⟩],
       ["/uploads/old.png"]⟩ "1" "/uploads/new.png" (by decide)⟩

/-- **C2, counterexample.**  The claim requires the staged blob to be
discarded before the NotFound error returns.  In variant A,
`POST /api/series/:id/episodes` on an unknown series id with an uploaded
file answers 404 and the uploaded file `/uploads/v.mp4` is still present
in blob storage afterwards. -/
theorem c2_counterexample :
    VA.addEpisode ⟨[], ["/uploads/v.mp4"]⟩ "42" (some ⟨"v.mp4", "orig.mp4"⟩)
        "" "" "" "alice" 7 9 = (.notFound, ⟨[], ["/uploads/v.mp4"]⟩) ∧
    "/uploads/v.mp4" ∈ (VA.addEpisode ⟨[], ["/uploads/v.mp4"]⟩ "42"
        (some ⟨"v.mp4", "orig.mp4"⟩) "" "" "" "alice" 7 9).2.blobs := by
  decide

/-- **C2 (amended).**  `AddEpisode` with an uploaded blob on a series id
not in the collection returns NotFound in both variants; variant B
unlinks the staged blob before returning, so the file is absent from
storage afterwards, while variant A leaves the state — including the
staged blob — completely untouched. -/
theorem c2_amended (stA : VA.St) (sidA : String) (fA : VA.UploadedFile)
    (titleA tyA srcA userA : String) (now rand : Nat)
    (stB : VB.St) (sidB : String) (fB : VB.UploadedFile)
    (titleB urlB pseudoB userB : String)
    (hA : stA.series.find? (fun s => s.id == sidA) = none)
    (hB : stB.series.find? (fun s => s.id == sidB) = none) :
    VA.addEpisode stA sidA (some fA) titleA tyA srcA userA now rand =
      (.notFound, stA) ∧
    (VB.addEpisode stB sidB (some fB) titleB urlB pseudoB userB).1 =
      .notFound ∧
    VB.blobPath fB ∉
      (VB.addEpisode stB sidB (some fB) titleB urlB pseudoB userB).2.blobs := by
  refine ⟨?_, ?_, ?_⟩
  · simp [VA.addEpisode, hA]
  · simp [VB.addEpisode, hB]
  · simp [VB.addEpisode, hB, unlink, List.mem_filter]

/-- Witness for C2 at concrete states whose series collections are empty
and whose blob stores hold exactly the staged upload. -/
theorem c2_witness :
    ((VA.St.mk [] ["/uploads/a.mp4"]).series.find? (fun s => s.id == "9")
        = none) ∧
    ((VB.St.mk [] 1 ["/uploads/b.mp4"]).series.find? (fun s => s.id == "9")
        = none) ∧
    (VA.addEpisode ⟨[], ["/uploads/a.mp4"]⟩ "9" (some ⟨"a.mp4", "o.mp4"⟩)
        "" "" "" "u" 1 2 = (.notFound, ⟨[], ["/uploads/a.mp4"]⟩) ∧
      (VB.addEpisode ⟨[], 1, ["/uploads/b.mp4"]⟩ "9" (some ⟨"f", "b.mp4"⟩)
          "" "" "" "u").1 = .notFound ∧
      VB.blobPath ⟨"f", "b.mp4"⟩ ∉
        (VB.addEpisode ⟨[], 1, ["/uploads/b.mp4"]⟩ "9" (some ⟨"f", "b.mp4"⟩)
            "" "" "" "u").2.blobs) :=
  ⟨rfl, rfl,
   c2_amended ⟨[], ["/uploads/a.mp4"]⟩ "9" ⟨"a.mp4", "o.mp4"⟩ "" "" "" "u" 1 2
     ⟨[], 1, ["/uploads/b.mp4"]⟩ "9" ⟨"f", "b.mp4"⟩ "" "" "" "u" rfl rfl⟩

/-- Result classifier for variant B series creation (needed to state
concrete success facts decidably). -/
def VB.CreateRes.isOk : VB.CreateRes → Bool
  | .ok _ => true
  | _ => false

/-- **C1, counterexample.**  Variant B's `POST /api/series` performs no
duplicate-name check: creating `"Naruto"` and then `"naruto"` both
succeed, and the collection ends with two series whose names compare
equal case-insensitively — the claim fails on variant B. -/
theorem c1_counterexample :
    ((VB.createSeries ⟨[], 1, []⟩ "u" "Naruto" "" ""
        (some [⟨false, 0, "Ep1", "http://example.com/1"⟩]) []).1.isOk
      = true) ∧
    ((VB.createSeries
        ((VB.createSeries ⟨[], 1, []⟩ "u" "Naruto" "" ""
            (some [⟨false, 0, "Ep1", "http://example.com/1"⟩]) []).2)
        "u" "naruto" "" ""
        (some [⟨false, 0, "Ep1", "http://example.com/1"⟩]) []).1.isOk
      = true) ∧
    ((VB.createSeries
        ((VB.createSeries ⟨[], 1, []⟩ "u" "Naruto" "" ""
            (some [⟨false, 0, "Ep1", "http://example.com/1"⟩]) []).2)
        "u" "naruto" "" ""
        (some [⟨false, 0, "Ep1", "http://example.com/1"⟩]) []).2.series.countP
      (fun s => jsToLower s.name == jsToLower "naruto") = 2) := by
  decide

/-- **C1 (amended).**  In variant A the case-insensitive uniqueness claim
holds: starting from a collection with no case-insensitive match for
`n1`, the first create succeeds, a second create with any case-variant
`n2` returns ConflictError and leaves the store untouched, exactly one
matching record exists afterwards, and case-insensitive name uniqueness
of the whole collection is preserved.  (Variant B performs no duplicate
check at all — see the counterexample.) -/
theorem c1_amended (st : VA.St) (u1 u2 n1 n2 d1 d2 i1 i2 : String)
    (t1 r1 t2 r2 : Nat)
    (h1 : n1 ≠ "") (h2 : n2 ≠ "")
    (heq : jsToLower n1 = jsToLower n2)
    (hfree : ∀ s ∈ st.series, (jsToLower s.name == jsToLower n1) = false) :
    ∃ s1 : VA.Series,
      VA.createSeries st u1 n1 d1 i1 t1 r1 =
        (.ok s1, ⟨st.series ++ [s1], st.blobs⟩) ∧
      VA.createSeries ⟨st.series ++ [s1], st.blobs⟩ u2 n2 d2 i2 t2 r2 =
        (.conflict, ⟨st.series ++ [s1], st.blobs⟩) ∧
      (st.series ++ [s1]).countP (fun s => jsToLower s.name == jsToLower n1)
        = 1 ∧
      (List.Pairwise (fun a b => jsToLower a.name ≠ jsToLower b.name)
          st.series →
        List.Pairwise (fun a b => jsToLower a.name ≠ jsToLower b.name)
          (st.series ++ [s1])) := by
  obtain ⟨ser, bl⟩ := st
  simp only at hfree
  have hfind : ser.find? (fun s => jsToLower s.name == jsToLower n1)
      = none := by
    rw [List.find?_eq_none]
    intro x hx
    simp [hfree x hx]
  refine ⟨⟨VA.genId t1 r1, n1, d1, i1, u1, []⟩, ?_, ?_, ?_, ?_⟩
  · simp only [VA.createSeries, if_neg h1, hfind, Option.isSome_none,
      Bool.false_eq_true, if_false]
  · have hfind2 : ((ser ++ [(⟨VA.genId t1 r1, n1, d1, i1, u1, []⟩ : VA.Series)]).find?
        (fun s => jsToLower s.name == jsToLower n2)).isSome = true := by
      rw [List.find?_isSome]
      exact ⟨⟨VA.genId t1 r1, n1, d1, i1, u1, []⟩, by simp, by simp [heq]⟩
    simp only [VA.createSeries, if_neg h2, hfind2, if_true]
  · rw [List.countP_append]
    have h0 : ser.countP (fun s => jsToLower s.name == jsToLower n1) = 0 := by
      rw [List.countP_eq_zero]
      intro a ha
      simp [hfree a ha]
    rw [h0]
    simp [List.countP_cons]
  · intro hp
    rw [List.pairwise_append]
    refine ⟨hp, by simp, ?_⟩
    intro a ha b hb
    simp only [List.mem_singleton] at hb
    subst hb
    have := hfree a ha
    simpa using this

theorem mem_unlink (p b : String) (bs : List String) :
    b ∈ unlink p bs ↔ b ∈ bs ∧ b ≠ p := by
  simp [unlink, List.mem_filter]

theorem mem_releaseEpisode (ep : VB.Episode) (b : String) (bs : List String) :
    b ∈ VB.releaseEpisode ep bs ↔
      b ∈ bs ∧ (jsStartsWith ep.src "/uploads/" = true → b ≠ ep.src) := by
  unfold VB.releaseEpisode
  by_cases h : jsStartsWith ep.src "/uploads/"
  · simp [h, mem_unlink]
  · simp [h]

theorem mem_releaseFold (eps : List VB.Episode) : ∀ (bs : List String)
    (b : String),
    b ∈ eps.foldl (fun bs ep => VB.releaseEpisode ep bs) bs ↔
      b ∈ bs ∧ ∀ ep ∈ eps, jsStartsWith ep.src "/uploads/" = true →
        b ≠ ep.src := by
  induction eps with
  | nil => intro bs b; simp
  | cons e rest ih =>
      intro bs b
      simp only [List.foldl_cons]
      rw [ih, mem_releaseEpisode]
      constructor
      · rintro ⟨⟨hb, he⟩, hrest⟩
        refine ⟨hb, ?_⟩
        intro ep hep
        rcases List.mem_cons.mp hep with h | h
        · subst h; exact he
        · exact hrest ep h
      · rintro ⟨hb, hall⟩
        exact ⟨⟨hb, hall e (List.mem_cons_self _ _)⟩,
               fun ep hep => hall ep (List.mem_cons_of_mem _ hep)⟩

/-- **C3, counterexample.**  The claim requires `DeleteSeries` to delete
the cover-image blob when the cover is a blob.  In variant B, deleting a
series whose cover is `/uploads/cover.png` removes the episode blob but
leaves the cover blob on disk: the handler only iterates over
`episodes`. -/
theorem c3_counterexample :
    VB.deleteSeries
      ⟨[⟨"1", "Naruto", "", "/uploads/cover.png", "a",
          [⟨"1-1", "Ep1", "/uploads/e1.mp4", "a"⟩]⟩], 2,
        ["/uploads/cover.png", "/uploads/e1.mp4"]⟩ true "1" =
      (.ok, ⟨[], 2, ["/uploads/cover.png"]⟩) := by
  decide

/-- **C3 (amended).**  A successful variant-B `DeleteSeries` removes the
record and, of the blob store, exactly the files whose episode `src`
starts with `/uploads/`: every such episode blob is absent afterwards,
while any file not referenced by the deleted episodes — in particular
anything referenced through an External URL, which names no file in the
store — survives.  The cover-image blob is **not** deleted (see the
counterexample).  Variant A's `DeleteSeries` removes the record but
deletes no blob file at all. -/
theorem c3_amended (st : VB.St) (sid : String) (s : VB.Series)
    (rest : List VB.Series)
    (hx : extractFirst (fun x => x.id == sid) st.series = some (s, rest))
    (stA : VA.St) (userA : Option String) (adminName sidA : String)
    (sA : VA.Series) (restA : List VA.Series)
    (hadmA : VA.isAdmin userA adminName = true)
    (hxA : extractFirst (fun x => x.id == sidA) stA.series
      = some (sA, restA)) :
    VB.deleteSeries st true sid =
      (.ok, ⟨rest, st.nextId,
        s.episodes.foldl (fun bs ep => VB.releaseEpisode ep bs) st.blobs⟩) ∧
    (∀ ep ∈ s.episodes, jsStartsWith ep.src "/uploads/" = true →
      ep.src ∉ (VB.deleteSeries st true sid).2.blobs) ∧
    (∀ b ∈ st.blobs, (∀ ep ∈ s.episodes, b ≠ ep.src) →
      b ∈ (VB.deleteSeries st true sid).2.blobs) ∧
    VA.deleteSeries stA userA adminName sidA = (.ok, ⟨restA, stA.blobs⟩) := by
  obtain ⟨ser, nid, bl⟩ := st
  simp only at hx
  have hdel : VB.deleteSeries ⟨ser, nid, bl⟩ true sid =
      (.ok, ⟨rest, nid,
        s.episodes.foldl (fun bs ep => VB.releaseEpisode ep bs) bl⟩) := by
    simp [VB.deleteSeries, hx]
  refine ⟨hdel, ?_, ?_, ?_⟩
  · intro ep hep hpre hmem
    rw [hdel] at hmem
    simp only at hmem
    rw [mem_releaseFold] at hmem
    exact hmem.2 ep hep hpre rfl
  · intro b hb hne
    rw [hdel]
    simp only
    rw [mem_releaseFold]
    exact ⟨hb, fun ep hep _ => hne ep hep⟩
  · obtain ⟨serA, blA⟩ := stA
    simp only at hxA
    simp [VA.deleteSeries, hadmA, hxA]

/-- Witness for C3: a series with one uploaded and one external episode
and a blob cover; the uploaded episode's file is removed, an unrelated
file survives, and the variant-A delete keeps the blob store intact. -/
theorem c3_witness :
    (extractFirst (fun x => x.id == "1")
        [(⟨"1", "N", "", "/uploads/cover.png", "a",
            [⟨"1-1", "E1", "/uploads/e1.mp4", "a"⟩,
             ⟨"1-2", "E2", "http://x.example/2", "a"⟩]⟩ : VB.Series)] =
      some (⟨"1", "N", "", "/uploads/cover.png", "a",
             [⟨"1-1", "E1", "/uploads/e1.mp4", "a"⟩,
              ⟨"1-2", "E2", "http://x.example/2", "a"⟩]⟩, [])) ∧
    VA.isAdmin (some "AnimeForever-admin") "AnimeForever-admin" = true ∧
    (extractFirst (fun x => x.id == "7")
        [(⟨"7", "M", "", "", "a", []⟩ : VA.Series)] =
      some (⟨"7", "M", "", "", "a", []⟩, [])) ∧
    "/uploads/e1.mp4" ∉
      (VB.deleteSeries
        ⟨[⟨"1", "N", "", "/uploads/cover.png", "a",
            [⟨"1-1", "E1", "/uploads/e1.mp4", "a"⟩,
             ⟨"1-2", "E2", "http://x.example/2", "a"⟩]⟩], 2,
          ["/uploads/e1.mp4", "/uploads/other.bin"]⟩ true "1").2.blobs ∧
    "/uploads/other.bin" ∈
      (VB.deleteSeries
        ⟨[⟨"1", "N", "", "/uploads/cover.png", "a",
            [⟨"1-1", "E1", "/uploads/e1.mp4", "a"⟩,
             ⟨"1-2", "E2", "http://x.example/2", "a"⟩]⟩], 2,
          ["/uploads/e1.mp4", "/uploads/other.bin"]⟩ true "1").2.blobs ∧
    VA.deleteSeries ⟨[⟨"7", "M", "", "", "a", []⟩], ["/uploads/k.png"]⟩
        (some "AnimeForever-admin") "AnimeForever-admin" "7" =
      (.ok, ⟨[], ["/uploads/k.png"]⟩) := by
  have h := c3_amended
    ⟨[⟨"1", "N", "", "/uploads/cover.png", "a",
        [⟨"1-1", "E1", "/uploads/e1.mp4", "a"⟩,
         ⟨"1-2", "E2", "http://x.example/2", "a"⟩]⟩], 2,
      ["/uploads/e1.mp4", "/uploads/other.bin"]⟩ "1"
    ⟨"1", "N", "", "/uploads/cover.png", "a",
      [⟨"1-1", "E1", "/uploads/e1.mp4", "a"⟩,
       ⟨"1-2", "E2", "http://x.example/2", "a"⟩]⟩ []
    (by decide)
    ⟨[⟨"7", "M", "", "", "a", []⟩], ["/uploads/k.png"]⟩
    (some "AnimeForever-admin") "AnimeForever-admin" "7"
    ⟨"7", "M", "", "", "a", []⟩ [] (by decide) (by decide)
  refine ⟨by decide, by decide, by decide, ?_, ?_, h.2.2.2⟩
  · exact h.2.1 ⟨"1-1", "E1", "/uploads/e1.mp4", "a"⟩ (by decide) (by decide)
  · exact h.2.2.1 "/uploads/other.bin" (by decide) (by decide)

/-- **C10.**  Blob ownership is decided by string-prefix inspection:
an episode created from an uploaded file stores
`src = "/uploads/" ++ filename` (both variants), an episode created from
a caller-supplied URL stores that URL verbatim (both variants), and the
variant-B deletion paths unlink a file exactly when the episode's `src`
starts with `/uploads/` — when it does, the file is removed; when it
does not, the blob store is untouched. -/
theorem c10_prefix_ownership
    (stA : VA.St) (sidA : String) (fA : VA.UploadedFile)
    (tA tyA srA uA : String) (now rand : Nat) (sA : VA.Series)
    (hA : stA.series.find? (fun x => x.id == sidA) = some sA)
    (stB stB' : VB.St) (sidB sidB' : String) (fB : VB.UploadedFile)
    (tB urlB pB uB tB' urlB' pB' uB' : String) (eB eB' : VB.Episode)
    (hurl : urlB' ≠ "")
    (stD : VB.St) (sidD epIdD : String) (sD : VB.Series) (epD : VB.Episode)
    (restD : List VB.Episode)
    (hD1 : stD.series.find? (fun s => s.id == sidD) = some sD)
    (hD2 : extractFirst (fun e => e.id == epIdD) sD.episodes
      = some (epD, restD))
    (epX epY : VB.Episode) (bsX bsY : List String) :
    (VA.addEpisode stA sidA (some fA) tA tyA srA uA now rand).2.series =
      updateFirst (fun x => x.id == sidA)
        (fun x => { x with episodes := x.episodes ++
          [⟨VA.genId now rand,
            (if tA = "" then "Épisode " ++ Nat.repr (sA.episodes.length + 1)
             else tA),
            "url", "/uploads/" ++ fA.filename, uA,
            some fA.originalname⟩] }) stA.series ∧
    (srA ≠ "" → (VA.addEpisode stA sidA none tA tyA srA uA now rand).2.series =
      updateFirst (fun x => x.id == sidA)
        (fun x => { x with episodes := x.episodes ++
          [⟨VA.genId now rand,
            (if tA = "" then "Épisode " ++ Nat.repr (sA.episodes.length + 1)
             else tA),
            (if tyA = "" then "url" else tyA), srA, uA, none⟩] })
        stA.series) ∧
    ((VB.addEpisode stB sidB (some fB) tB urlB pB uB).1 = .ok eB →
      eB.src = "/uploads/" ++ fB.filename) ∧
    ((VB.addEpisode stB' sidB' none tB' urlB' pB' uB').1 = .ok eB' →
      eB'.src = urlB') ∧
    (VB.deleteEpisode stD true sidD epIdD).2.blobs =
      VB.releaseEpisode epD stD.blobs ∧
    (jsStartsWith epX.src "/uploads/" = true →
      epX.src ∉ VB.releaseEpisode epX bsX) ∧
    (jsStartsWith epY.src "/uploads/" = false →
      VB.releaseEpisode epY bsY = bsY) := by
  refine ⟨?_, ?_, ?_, ?_, ?_, ?_, ?_⟩
  · simp [VA.addEpisode, hA, VA.blobPath]
  · intro hsr
    simp [VA.addEpisode, hA, hsr]
  · cases hf : stB.series.find? (fun s => s.id == sidB) with
    | none => intro h; simp [VB.addEpisode, hf] at h
    | some s =>
        intro h
        simp only [VB.addEpisode, hf] at h
        rw [VB.AddRes.ok.injEq] at h
        subst h
        rfl
  · cases hf : stB'.series.find? (fun s => s.id == sidB') with
    | none => intro h; simp [VB.addEpisode, hf] at h
    | some s =>
        intro h
        simp only [VB.addEpisode, hf, if_neg hurl] at h
        rw [VB.AddRes.ok.injEq] at h
        subst h
        rfl
  · obtain ⟨serD, nidD, blD⟩ := stD
    simp only at hD1 hD2 ⊢
    simp [VB.deleteEpisode, hD1, hD2]
  · intro hpre hmem
    rw [mem_releaseEpisode] at hmem
    exact hmem.2 hpre rfl
  · intro hpre
    simp [VB.releaseEpisode, hpre]

/-- Witness for C10: concrete uploads, external URLs and deletions
exercising every branch of the prefix-ownership theorem. -/
theorem c10_witness :
    ([(⟨"3", "S", "", "", "a", []⟩ : VA.Series)].find? (fun x => x.id == "3")
      = some ⟨"3", "S", "", "", "a", []⟩) ∧
    ("http://z.example/1" ≠ "") ∧
    ("http://y.example/9" ≠ "") ∧
    ([(⟨"7", "D", "", "", "a",
        [⟨"7-1", "E", "/uploads/d.mp4", "a"⟩]⟩ : VB.Series)].find?
      (fun s => s.id == "7")
      = some ⟨"7", "D", "", "", "a",
          [⟨"7-1", "E", "/uploads/d.mp4", "a"⟩]⟩) ∧
    (extractFirst (fun e => e.id == "7-1")
        [(⟨"7-1", "E", "/uploads/d.mp4", "a"⟩ : VB.Episode)]
      = some (⟨"7-1", "E", "/uploads/d.mp4", "a"⟩, [])) ∧
    ((VB.addEpisode ⟨[⟨"5", "S", "", "", "a", []⟩], 1, []⟩ "5"
        (some ⟨"f", "v.mp4"⟩) "" "" "" "u").1
      = .ok ⟨"5-1", "Épisode 1", "/uploads/v.mp4", "u"⟩) ∧
    ((VB.addEpisode ⟨[⟨"5", "S", "", "", "a", []⟩], 1, []⟩ "5" none
        "T" "http://y.example/9" "p" "u").1
      = .ok ⟨"5-1", "T", "http://y.example/9", "p"⟩) ∧
    (jsStartsWith "/uploads/x.bin" "/uploads/" = true) ∧
    (jsStartsWith "http://e.example/y" "/uploads/" = false) ∧
    ((VA.addEpisode ⟨[⟨"3", "S", "", "", "a", []⟩], []⟩ "3"
        (some ⟨"v.mp4", "o.mp4"⟩) "T" "" "http://z.example/1" "u" 1 2).2.series
      = [⟨"3", "S", "", "", "a",
          [⟨"1-2", "T", "url", "/uploads/v.mp4", "u", some "o.mp4"⟩]⟩]) ∧
    ((VA.addEpisode ⟨[⟨"3", "S", "", "", "a", []⟩], []⟩ "3" none
        "T" "" "http://z.example/1" "u" 1 2).2.series
      = [⟨"3", "S", "", "", "a",
          [⟨"1-2", "T", "url", "http://z.example/1", "u", none⟩]⟩]) ∧
    ((⟨"5-1", "Épisode 1", "/uploads/v.mp4", "u"⟩ : VB.Episode).src
      = "/uploads/" ++ "v.mp4") ∧
    ((⟨"5-1", "T", "http://y.example/9", "p"⟩ : VB.Episode).src
      = "http://y.example/9") ∧
    ((VB.deleteEpisode ⟨[⟨"7", "D", "", "", "a",
          [⟨"7-1", "E", "/uploads/d.mp4", "a"⟩]⟩], 9, ["/uploads/d.mp4"]⟩
        true "7" "7-1").2.blobs
      = VB.releaseEpisode ⟨"7-1", "E", "/uploads/d.mp4", "a"⟩
          ["/uploads/d.mp4"]) ∧
    ("/uploads/x.bin" ∉
      VB.releaseEpisode (⟨"x", "x", "/uploads/x.bin", "x"⟩ : VB.Episode)
        ["/uploads/x.bin"]) ∧
    (VB.releaseEpisode (⟨"y", "y", "http://e.example/y", "y"⟩ : VB.Episode)
        ["/uploads/q.bin"] = ["/uploads/q.bin"]) := by
  have H := c10_prefix_ownership
    ⟨[⟨"3", "S", "", "", "a", []⟩], []⟩ "3" ⟨"v.mp4", "o.mp4"⟩
    "T" "" "http://z.example/1" "u" 1 2 ⟨"3", "S", "", "", "a", []⟩
    (by decide)
    ⟨[⟨"5", "S", "", "", "a", []⟩], 1, []⟩
    ⟨[⟨"5", "S", "", "", "a", []⟩], 1, []⟩
    "5" "5" ⟨"f", "v.mp4"⟩
    "" "" "" "u" "T" "http://y.example/9" "p" "u"
    ⟨"5-1", "Épisode 1", "/uploads/v.mp4", "u"⟩
    ⟨"5-1", "T", "http://y.example/9", "p"⟩
    (by decide)
    ⟨[⟨"7", "D", "", "", "a", [⟨"7-1", "E", "/uploads/d.mp4", "a"⟩]⟩], 9,
      ["/uploads/d.mp4"]⟩ "7" "7-1"
    ⟨"7", "D", "", "", "a", [⟨"7-1", "E", "/uploads/d.mp4", "a"⟩]⟩
    ⟨"7-1", "E", "/uploads/d.mp4", "a"⟩ []
    (by decide) (by decide)
    ⟨"x", "x", "/uploads/x.bin", "x"⟩ ⟨"y", "y", "http://e.example/y", "y"⟩
    ["/uploads/x.bin"] ["/uploads/q.bin"]
  refine ⟨by decide, by decide, by decide, by decide, by decide, by decide,
    by decide, by decide, by decide, by decide, by decide,
    H.2.2.1 (by decide), H.2.2.2.1 (by decide), H.2.2.2.2.1,
    H.2.2.2.2.2.1 (by decide), H.2.2.2.2.2.2 (by decide)⟩

theorem mkEpisode_id (n : Nat) (pseudo : String)
    (files : List VB.UploadedFile) (idx : Nat) (ep : VB.EpisodeSpec)
    (e : VB.Episode) (h : VB.mkEpisode n pseudo files idx ep = some e) :
    e.id = Nat.repr n ++ "-" ++ Nat.repr (idx + 1) := by
  unfold VB.mkEpisode at h
  by_cases hf : ep.hasFile
  · simp only [hf, if_true] at h
    cases hff : files.find?
        (fun f => f.fieldname == "episode_" ++ Nat.repr ep.index) with
    | none => rw [hff] at h; simp at h
    | some f =>
        rw [hff] at h
        simp only [Option.map_some'] at h
        rw [Option.some.injEq] at h
        subst h
        rfl
  · simp only [hf, Bool.false_eq_true, if_false] at h
    rw [Option.some.injEq] at h
    subst h
    rfl

theorem buildEpisodes_ids (n : Nat) (pseudo : String)
    (files : List VB.UploadedFile) :
    ∀ (l : List VB.EpisodeSpec) (idx : Nat) (eps : List VB.Episode),
    VB.buildEpisodes n pseudo files idx l = some eps →
    eps.map (fun e => e.id) =
      (List.range l.length).map
        (fun j => Nat.repr n ++ "-" ++ Nat.repr (idx + j + 1)) := by
  intro l
  induction l with
  | nil =>
      intro idx eps h
      simp only [VB.buildEpisodes, Option.some.injEq] at h
      subst h
      simp
  | cons sp rest ih =>
      intro idx eps h
      cases hm : VB.mkEpisode n pseudo files idx sp with
      | none =>
          simp only [VB.buildEpisodes, hm] at h
          exact Option.noConfusion h
      | some e =>
          cases hb : VB.buildEpisodes n pseudo files (idx + 1) rest with
          | none =>
              simp only [VB.buildEpisodes, hm, hb] at h
              exact Option.noConfusion h
          | some es =>
              simp only [VB.buildEpisodes, hm, hb, Option.some.injEq] at h
              subst h
              have hid := mkEpisode_id n pseudo files idx sp e hm
              have hrest := ih (idx + 1) es hb
              simp only [List.map_cons, hid, hrest, List.length_cons]
              rw [List.range_succ_eq_map]
              simp only [List.map_cons, List.map_map]
              refine congrArg₂ List.cons ?_ ?_
              · have : idx + 0 + 1 = idx + 1 := by omega
                rw [this]
              · apply List.map_congr_left
                intro j hj
                simp only [Function.comp_apply]
                have : idx + 1 + j + 1 = idx + (j + 1) + 1 := by omega
                rw [this]

/-- **C8, counterexample.**  In variant A the series id is
`Date.now() + '-' + random` and so are episode ids: with time 100 and
random draw 5 a created series gets id `"100-5"`; a second creation with
the same samples produces a second record with the *same* id (the scheme
is not collision-free), and an episode added with samples (200, 7) gets
id `"200-7"`, not the `{seriesId}-{ordinal}` id `"100-5-1"` the claim
requires. -/
theorem c8_counterexample :
    ((VA.createSeries ⟨[], []⟩ "u" "Naruto" "" "" 100 5).1 =
      .ok ⟨"100-5", "Naruto", "", "", "u", []⟩) ∧
    ((VA.createSeries (VA.createSeries ⟨[], []⟩ "u" "Naruto" "" "" 100 5).2
        "u" "Bleach" "" "" 100 5).2.series.countP
      (fun s => s.id == "100-5") = 2) ∧
    ((VA.addEpisode (VA.createSeries ⟨[], []⟩ "u" "Naruto" "" "" 100 5).2
        "100-5" none "T" "" "http://x.example/1" "u" 200 7).2.series =
      [⟨"100-5", "Naruto", "", "", "u",
        [⟨"200-7", "T", "url", "http://x.example/1", "u", none⟩]⟩]) ∧
    (("200-7" == "100-5-1") = false) := by
  decide

/-- **C8 (amended).**  In variant B, a successful creation assigns the
series the id `String(nextSeriesId)` and bumps the counter, each episode
gets id `{seriesId}-{ordinal}` with the ordinal starting at 1 and
following spec order, and any other counter value yields a different
series id (the in-run counter makes ids collision-free).  In variant A
ids are timestamp-random strings: episode ids do not follow the
`{seriesId}-{ordinal}` scheme and repeated samples collide (see the
counterexample). -/
theorem c8_amended (st : VB.St) (pseudo name desc image : String)
    (l : List VB.EpisodeSpec) (files : List VB.UploadedFile)
    (eps : List VB.Episode)
    (hp : pseudo ≠ "") (hn : name ≠ "") (hl : l ≠ [])
    (hb : VB.buildEpisodes st.nextId pseudo files 0 l = some eps) :
    VB.createSeries st pseudo name desc image (some l) files =
      (.ok ⟨Nat.repr st.nextId, name, desc, image, pseudo, eps⟩,
       ⟨st.series ++ [⟨Nat.repr st.nextId, name, desc, image, pseudo, eps⟩],
        st.nextId + 1, st.blobs⟩) ∧
    eps.map (fun e => e.id) =
      (List.range l.length).map
        (fun j => Nat.repr st.nextId ++ "-" ++ Nat.repr (j + 1)) ∧
    (∀ m : Nat, m ≠ st.nextId → Nat.repr m ≠ Nat.repr st.nextId) := by
  obtain ⟨ser, nid, bl⟩ := st
  simp only at hb ⊢
  have hle : l.isEmpty = false := by
    cases l with
    | nil => exact absurd rfl hl
    | cons a l => rfl
  refine ⟨?_, ?_, ?_⟩
  · simp [VB.createSeries, hp, hn, hle, hb]
  · have := buildEpisodes_ids nid pseudo files l 0 eps hb
    simpa using this
  · intro m hm hc
    exact hm (natRepr_inj hc)

/-- Witness for C8: creation from counter 1 with one external and one
uploaded episode spec yields series id `"1"`, episode ids `"1-1"`,
`"1-2"`, counter 2, and the next counter value prints differently. -/
theorem c8_witness :
    ("u" ≠ "") ∧ ("Naruto" ≠ "") ∧
    ([(⟨false, 0, "E1", "http://x.example/1"⟩ : VB.EpisodeSpec),
      ⟨true, 1, "E2", ""⟩] ≠ []) ∧
    (VB.buildEpisodes 1 "u" [⟨"episode_1", "v.mp4"⟩] 0
        [⟨false, 0, "E1", "http://x.example/1"⟩, ⟨true, 1, "E2", ""⟩] =
      some [⟨"1-1", "E1", "http://x.example/1", "u"⟩,
            ⟨"1-2", "E2", "/uploads/v.mp4", "u"⟩]) ∧
    (VB.createSeries ⟨[], 1, []⟩ "u" "Naruto" "" ""
        (some [⟨false, 0, "E1", "http://x.example/1"⟩, ⟨true, 1, "E2", ""⟩])
        [⟨"episode_1", "v.mp4"⟩] =
      (.ok ⟨Nat.repr 1, "Naruto", "", "", "u",
          [⟨"1-1", "E1", "http://x.example/1", "u"⟩,
           ⟨"1-2", "E2", "/uploads/v.mp4", "u"⟩]⟩,
       ⟨[⟨Nat.repr 1, "Naruto", "", "", "u",
          [⟨"1-1", "E1", "http://x.example/1", "u"⟩,
           ⟨"1-2", "E2", "/uploads/v.mp4", "u"⟩]⟩], 2, []⟩)) ∧
    ([(⟨"1-1", "E1", "http://x.example/1", "u"⟩ : VB.Episode),
      ⟨"1-2", "E2", "/uploads/v.mp4", "u"⟩].map (fun e => e.id) =
      (List.range 2).map (fun j => Nat.repr 1 ++ "-" ++ Nat.repr (j + 1))) ∧
    (Nat.repr 2 ≠ Nat.repr 1) := by
  have H := c8_amended ⟨[], 1, []⟩ "u" "Naruto" "" ""
    [⟨false, 0, "E1", "http://x.example/1"⟩, ⟨true, 1, "E2", ""⟩]
    [⟨"episode_1", "v.mp4"⟩]
    [⟨"1-1", "E1", "http://x.example/1", "u"⟩,
     ⟨"1-2", "E2", "/uploads/v.mp4", "u"⟩]
    (by decide) (by decide) (by decide) (by decide)
  exact ⟨by decide, by decide, by decide, by decide, H.1, H.2.1,
    H.2.2 2 (by decide)⟩

theorem decodeEpisode_encode (e : VA.Episode) :
    VA.decodeEpisode (VA.encodeEpisode e) = some e := by
  obtain ⟨i, t, ty, sr, p, fn⟩ := e
  cases fn <;> rfl

theorem decodeList_map {α : Type} (dec : Json → Option α) (enc : α → Json)
    (H : ∀ a, dec (enc a) = some a) : ∀ l : List α,
    VA.decodeList dec (l.map enc) = some l := by
  intro l
  induction l with
  | nil => rfl
  | cons a l ih => simp [VA.decodeList, H a, ih]

theorem decodeSeries_encode (s : VA.Series) :
    VA.decodeSeries (VA.encodeSeries s) = some s := by
  obtain ⟨i, n, d, im, p, eps⟩ := s
  simp [VA.encodeSeries, VA.decodeSeries,
    decodeList_map VA.decodeEpisode VA.encodeEpisode decodeEpisode_encode]

/-- **C9.**  Persisting any collection and reloading it yields the same
logical collection: `writeJson` stores the serialized collection (one
write of its JSON rendering), `readJson` on the stored value returns it
unchanged (an array is never falsy, so the fallback is not taken), and
typing the parsed value recovers every series with the same id and
fields and its episodes in the same insertion order. -/
theorem c9_round_trip (file : String) (l : List VA.Series) :
    writeJsonTrace file (VA.encodeColl l) =
      [FsOp.write file (VA.encodeColl l)] ∧
    VA.decodeColl (readJson (Except.ok (VA.encodeColl l)) (Json.arr []))
      = some l := by
  refine ⟨rfl, ?_⟩
  have hread : readJson (Except.ok (VA.encodeColl l)) (Json.arr [])
      = VA.encodeColl l := rfl
  rw [hread]
  simp [VA.encodeColl, VA.decodeColl,
    decodeList_map VA.decodeSeries VA.encodeSeries decodeSeries_encode]

/-- Witness for C1: the scenario of the spec — `CreateSeries("Naruto")`
succeeds, `CreateSeries("naruto")` conflicts and exactly one matching
record remains. -/
theorem c1_witness :
    ("Naruto" ≠ "") ∧ ("naruto" ≠ "") ∧
    (jsToLower "Naruto" = jsToLower "naruto") ∧
    (VA.createSeries ⟨[], []⟩ "a" "Naruto" "" "" 1 2 =
      (.ok ⟨"1-2", "Naruto", "", "", "a", []⟩,
       ⟨[⟨"1-2", "Naruto", "", "", "a", []⟩], []⟩)) ∧
    (VA.createSeries ⟨[⟨"1-2", "Naruto", "", "", "a", []⟩], []⟩ "b" "naruto"
        "" "" 3 4 =
      (.conflict, ⟨[⟨"1-2", "Naruto", "", "", "a", []⟩], []⟩)) ∧
    ([(⟨"1-2", "Naruto", "", "", "a", []⟩ : VA.Series)].countP
      (fun s => jsToLower s.name == jsToLower "Naruto") = 1) := by
  have H := c1_amended ⟨[], []⟩ "a" "b" "Naruto" "naruto" "" "" "" "" 1 2 3 4
    (by decide) (by decide) (by decide) (by simp)
  obtain ⟨s1, h1, h2, h3, _⟩ := H
  have heval : VA.createSeries ⟨[], []⟩ "a" "Naruto" "" "" 1 2 =
      (.ok ⟨"1-2", "Naruto", "", "", "a", []⟩,
       ⟨[⟨"1-2", "Naruto", "", "", "a", []⟩], []⟩) := by decide
  have hs1 : s1 = ⟨"1-2", "Naruto", "", "", "a", []⟩ := by
    rw [heval] at h1
    have hfst := congrArg Prod.fst h1
    simp only at hfst
    exact ((VA.CreateRes.ok.injEq _ _).mp hfst).symm
  subst hs1
  refine ⟨by decide, by decide, by decide, heval, ?_, ?_⟩
  · simp only [List.nil_append] at h2
    exact h2
  · simp only [List.nil_append] at h3
    exact h3
